import Mathlib

/-!
Shallow embedding of the AWS S3 Vectors POC (files `s3_bucket.py` and
`s3_clean_short.py`).

Modelling conventions:
* External services (boto3 `s3vectors`, OpenAI embeddings) are oracles passed
  in explicitly; an oracle outcome is `Except String α`, where `.error e`
  is a raised exception carrying the text `str(e)`.
* A Python function that can let an exception escape is embedded with result
  type `Except String α`; `.error` means the exception propagates uncaught.
* Floats are modelled as rationals (`Rat`); none of the verified claims
  depend on float rounding behaviour.
* `uuid.uuid4()` is modelled as drawing successive values from a key supply
  `uuid : Nat → String` threaded through as a counter; the supply of a real
  uuid generator is injective, which appears as an explicit hypothesis where
  key uniqueness is claimed.
* Side effects that the claims observe (service calls, sleeps) are recorded
  in an `Event` trace.
-/

/-! ### String helpers: Python's `in` on strings and `str.lower` -/

/-- `strStarts s p` = the char list `p` is a leading segment of `s`. -/
def strStarts : List Char → List Char → Bool
  | _, [] => true
  | [], _ :: _ => false
  | c :: cs, p :: ps => c == p && strStarts cs ps

/-- Python `pat in s` on strings: `pat` occurs contiguously inside `s`. -/
def strContains (s pat : String) : Bool :=
  (List.range (s.data.length + 1)).any (fun i => strStarts (s.data.drop i) pat.data)

/-- Python `s.lower()`, character by character. -/
def strLower (s : String) : String :=
  String.mk (s.data.map Char.toLower)

/-! ### Data model -/

/-- A metadata dict with string values, e.g. `{"original_text": t, "source": "demo"}`. -/
abbrev Metadata := List (String × String)

/-- Python `dict.get k` (no default): first binding of `k`, if any. -/
def metaGet (m : Metadata) (k : String) : Option String :=
  (m.find? (fun p => p.1 == k)).map (fun p => p.2)

/-- One element of the `vectors=` argument of `put_vectors`:
`{'key': str(uuid.uuid4()), 'data': {'float32': vec}, 'metadata': ...}`. -/
structure VectorRecord where
  key : String
  data : List Rat
  metadata : Metadata
  deriving DecidableEq

/-- The argument bundle of one `query_vectors` API call. -/
structure QueryCall where
  vectorBucketName : String
  indexName : String
  queryVector : List Rat
  topK : Nat
  returnDistance : Bool
  returnMetadata : Bool
  deriving DecidableEq

/-- One element of the `vectors` field of a query response.  `returnDistance`
and `returnMetadata` are always `True` in this program, so both fields are
present per the service contract. -/
structure QResult where
  metadata : Metadata
  distance : Rat
  deriving DecidableEq

/-- Observable side effects of a run: remote calls and sleeps. -/
inductive Event where
  | createBucket
  | createIndex
  | sleep (units : Nat)
  | probe (attempt : Nat)
  | listBuckets
  | listIndexes
  | embedCall (texts : List String)
  | putCall (records : List VectorRecord)
  | finalQuery (call : QueryCall)
  deriving DecidableEq

/-! ### Fixed-precision rendering

Modelled from the spec: Python's built-in fixed-point float formatting
`f"{distance:.4f}"` (the formatting routine itself is outside the repo).
Rendered as (sign)(integer part)`.`(exactly four decimal digits); the
rounding direction on exact ties is immaterial to every claim. -/

/-- Four-digit zero-padded decimal rendering of `m % 10000`. -/
def pad4 (m : Nat) : String :=
  String.mk [Nat.digitChar (m / 1000 % 10), Nat.digitChar (m / 100 % 10),
             Nat.digitChar (m / 10 % 10), Nat.digitChar (m % 10)]

/-- The integer scaled by `10^4` and rounded, as `:.4f` does. -/
def pyRound4 (q : Rat) : Int :=
  ⌊q * 10000 + 1 / 2⌋

/-- `f"{q:.4f}"`. -/
def format4 (q : Rat) : String :=
  (if pyRound4 q < 0 then "-" else "") ++
    toString ((pyRound4 q).natAbs / 10000) ++ "." ++ pad4 ((pyRound4 q).natAbs % 10000)

/-! ### `s3_bucket.py`: provisioning -/

/-- The `except` test of `create_vector_bucket`:
`"BucketAlreadyExists" in str(e) or "already exists" in str(e).lower()`. -/
def bucketExistsErr (e : String) : Bool :=
  strContains e "BucketAlreadyExists" || strContains (strLower e) "already exists"

/-- The `except` test of `create_vector_index`:
`"IndexAlreadyExists" in str(e) or "already exists" in str(e).lower()`. -/
def indexExistsErr (e : String) : Bool :=
  strContains e "IndexAlreadyExists" || strContains (strLower e) "already exists"

/-- Return value of the provisioning helpers: the boto3 response (kept as its
HTTP status; a boto3 response dict is non-empty, hence truthy), or Python
`True` for the absorbed already-exists case.  Python `None` is `none`. -/
inductive CreateOutcome where
  | response (status : Nat)
  | alreadyOk
  deriving DecidableEq

/-- `create_vector_bucket`, given the outcome of the one `create_vector_bucket`
API call it makes.  Every exception is caught. -/
def create_vector_bucket (svc : Except String Nat) : Option CreateOutcome :=
  match svc with
  | .ok r => some (.response r)
  | .error e => if bucketExistsErr e then some .alreadyOk else none

/-- `create_vector_index`, given the outcome of the one `create_index`
API call it makes.  Every exception is caught. -/
def create_vector_index (svc : Except String Nat) : Option CreateOutcome :=
  match svc with
  | .ok r => some (.response r)
  | .error e => if indexExistsErr e then some .alreadyOk else none

/-! ### `s3_bucket.py`: embeddings and ingestion -/

/-- `generate_embeddings`: one batched call to the embedding service, no
`try`/`except` — a service exception propagates out of the function.
The second component records that the call was issued. -/
def generate_embeddings (svc : List String → Except String (List (List Rat)))
    (texts : List String) : Except String (List (List Rat)) × List Event :=
  (svc texts, [Event.embedCall texts])

/-- The record-building loop of `insert_vectors`:
`for i, vec in enumerate(vectors): ... metadata_list[i]`.  The index access
is outside the `try` block, so a too-short `metadata_list` raises an
uncaught `IndexError`.  The `Nat` argument pair is (uuid counter, loop index). -/
def buildRecords (uuid : Nat → String) :
    Nat → Nat → List (List Rat) → List Metadata → Except String (List VectorRecord × Nat)
  | s, _, [], _ => .ok ([], s)
  | s, i, vec :: rest, ml =>
    match ml[i]? with
    | none => .error "IndexError: list index out of range"
    | some m =>
      match buildRecords uuid (s + 1) (i + 1) rest ml with
      | .error e => .error e
      | .ok (recs, s') => .ok ({ key := uuid s, data := vec, metadata := m } :: recs, s')

/-- `insert_vectors`: build the records, then one bulk `put_vectors` call
(inside `try`: a put failure is caught and yields `None`).  Returns the
Python return value (`some` status or `none`), the advanced uuid counter,
and the trace of issued storage calls. -/
def insert_vectors (uuid : Nat → String) (s : Nat)
    (putSvc : List VectorRecord → Except String Nat)
    (vectors : List (List Rat)) (metadata_list : List Metadata) :
    Except String (Option Nat × Nat × List Event) :=
  match buildRecords uuid s 0 vectors metadata_list with
  | .error e => .error e
  | .ok (recs, s') =>
    match putSvc recs with
    | .ok r => .ok (some r, s', [Event.putCall recs])
    | .error _ => .ok (none, s', [Event.putCall recs])

/-! ### `s3_bucket.py`: query pipeline -/

/-- The argument bundle `query_vectors(...)` sends:
`returnDistance=True, returnMetadata=True`. -/
def mkQueryCall (bucket index : String) (v : List Rat) (k : Nat) : QueryCall :=
  { vectorBucketName := bucket, indexName := index, queryVector := v,
    topK := k, returnDistance := true, returnMetadata := true }

/-- Display form of one result row:
`metadata.get('original_text', 'No text available')` and `{distance:.4f}`. -/
def displayRow (r : QResult) : String × String :=
  ((metaGet r.metadata "original_text").getD "No text available", format4 r.distance)

/-- The rendering loop of `query_vectors`: one display row per result, in
the order the service returned them. -/
def displayRows (results : List QResult) : List (String × String) :=
  results.map displayRow

/-- `query_vectors`: one `query_vectors` API call inside `try`/`except`;
returns the raw result list (the code returns the whole response and prints
one row per result) or `None` on a caught exception, plus the rendered rows. -/
def query_vectors (svc : QueryCall → Except String (List QResult))
    (bucket index : String) (query_vector : List Rat) (top_k : Nat) :
    Option (List QResult) × List (String × String) :=
  match svc (mkQueryCall bucket index query_vector top_k) with
  | .ok results => (some results, displayRows results)
  | .error _ => (none, [])

/-! ### `s3_bucket.py`: readiness probe -/

/-- The probe call: `test_vector = [0.1] * VECTOR_DIMENSIONS`, `topK=1`. -/
def probeCall (bucket index : String) (dim : Nat) : QueryCall :=
  mkQueryCall bucket index (List.replicate dim ((1 : Rat) / 10)) 1

/-- `test_index_with_simple_operation`: issue the probe query; `False` only
when the caught error text (lower-cased) contains "not ready" or "building";
`True` on success and on any other error ("Proceeding anyway"). -/
def test_index_with_simple_operation (bucket index : String) (dim : Nat)
    (svc : QueryCall → Except String (List QResult)) : Bool :=
  match svc (probeCall bucket index dim) with
  | .ok _ => true
  | .error e =>
    if strContains (strLower e) "not ready" || strContains (strLower e) "building" then false
    else true

/-! ### `s3_bucket.py`: the probe retry loop of `main`

`for attempt in range(max_retries): if test(...): break
 if attempt < max_retries - 1: time.sleep(30)` -/

/-- Loop body over the remaining attempt numbers. -/
def probeLoopGo (probe : Nat → Bool) (max_retries : Nat) : List Nat → List Event
  | [] => []
  | attempt :: rest =>
    if probe attempt then [Event.probe attempt]
    else if attempt < max_retries - 1 then
      Event.probe attempt :: Event.sleep 30 :: probeLoopGo probe max_retries rest
    else [Event.probe attempt]

/-- The whole `for attempt in range(max_retries)` probe loop of `main`;
`probe a` is the result of `test_index_with_simple_operation` on attempt `a`. -/
def probeLoop (probe : Nat → Bool) (max_retries : Nat) : List Event :=
  probeLoopGo probe max_retries (List.range max_retries)

/-! ### `s3_clean_short.py` -/

/-- The zip comprehension of `insert`:
`[{...} for vec, meta in zip(vectors, metadatas)]` — silently truncates to
the shorter list.  Returns (records, advanced uuid counter). -/
def cleanBuild (uuid : Nat → String) :
    Nat → List (List Rat) → List Metadata → List VectorRecord × Nat
  | s, v :: vs, m :: ms =>
    let r := cleanBuild uuid (s + 1) vs ms
    ({ key := uuid s, data := v, metadata := m } :: r.1, r.2)
  | s, _, _ => ([], s)

/-- Display line of `query` in `s3_clean_short.py`:
`f"→ {r['metadata'].get('original_text')} (dist: {r['distance']:.4f})"`;
a missing `original_text` renders Python `None` as the text `None`. -/
def cleanDisplayRow (r : QResult) : String :=
  "→ " ++ ((metaGet r.metadata "original_text").getD "None") ++
    " (dist: " ++ format4 r.distance ++ ")"

namespace CleanShort

/-- `embed` of `s3_clean_short.py`: same shape as `generate_embeddings`,
no exception handling. -/
def embed (svc : List String → Except String (List (List Rat)))
    (texts : List String) : Except String (List (List Rat)) × List Event :=
  (svc texts, [Event.embedCall texts])

/-- `insert` of `s3_clean_short.py`: zip-built records, one `put_vectors`
call, no `try` — a put failure propagates. -/
def insert (uuid : Nat → String) (s : Nat)
    (putSvc : List VectorRecord → Except String Nat)
    (vectors : List (List Rat)) (metadatas : List Metadata) :
    Except String (Nat × Nat × List Event) :=
  let r := cleanBuild uuid s vectors metadatas
  match putSvc r.1 with
  | .ok resp => .ok (resp, r.2, [Event.putCall r.1])
  | .error e => .error e

/-- `query` of `s3_clean_short.py`: one query call, no `try`, renders one
line per returned result in service order. -/
def query (svc : QueryCall → Except String (List QResult))
    (bucket index : String) (vector : List Rat) (top_k : Nat) :
    Except String (List String) :=
  match svc (mkQueryCall bucket index vector top_k) with
  | .ok rs => .ok (rs.map cleanDisplayRow)
  | .error e => .error e

end CleanShort

/-! ### The orchestrator `main` of `s3_bucket.py` -/

def VECTOR_DIMENSIONS : Nat := 3072

def sample_texts : List String :=
  ["The quick brown fox jumps over the lazy dog.",
   "A journey of a thousand miles begins with a single step.",
   "To be or not to be, that is the question.",
   "All that glitters is not gold.",
   "The early bird catches the worm."]

def main_query_text : String := "What is the opposite of a late riser?"

/-- `metadata = [{"original_text": text, "source": "demo"} for text in sample_texts]` -/
def sampleMetadata : List Metadata :=
  sample_texts.map (fun t => [("original_text", t), ("source", "demo")])

/-- The external world of one `main` run.  The probe service is indexed by
the attempt number (the remote index's state evolves between probes); the
listing calls are caught-and-printed only, so their outcomes are not
modelled. -/
structure Env where
  bucketName : String
  indexName : String
  createBucketSvc : Except String Nat
  createIndexSvc : Except String Nat
  probeSvc : Nat → QueryCall → Except String (List QResult)
  embedSvc : List String → Except String (List (List Rat))
  putSvc : List VectorRecord → Except String Nat
  querySvc : QueryCall → Except String (List QResult)
  uuid : Nat → String

/-- Probe attempt `a` of `main`'s retry loop. -/
def mainProbe (env : Env) (attempt : Nat) : Bool :=
  test_index_with_simple_operation env.bucketName env.indexName VECTOR_DIMENSIONS
    (env.probeSvc attempt)

/-- The tail of `main` after the probe loop and resource listing: generate
embeddings (uncaught on failure; `embeddings[0]` is read in a print, so an
empty response raises), insert, and — only if the insert reported success —
sleep 15, embed the query text (`[0]` again), and query. -/
def ingestAndQuery (env : Env) (pre : List Event) : Except String (List Event) :=
  match env.embedSvc sample_texts with
  | .error e => .error e
  | .ok [] => .error "IndexError: list index out of range"
  | .ok (emb0 :: embRest) =>
    match insert_vectors env.uuid 0 env.putSvc (emb0 :: embRest) sampleMetadata with
    | .error e => .error e
    | .ok (res, _, evs) =>
      match res with
      | none => .ok (pre ++ [Event.embedCall sample_texts] ++ evs)
      | some _ =>
        match env.embedSvc [main_query_text] with
        | .error e => .error e
        | .ok [] => .error "IndexError: list index out of range"
        | .ok (qe :: _) =>
          .ok (pre ++ [Event.embedCall sample_texts] ++ evs ++
            [Event.sleep 15, Event.embedCall [main_query_text],
             Event.finalQuery (mkQueryCall env.bucketName env.indexName qe 5)])

/-- `main`: provisioning (each failure returns early), unconditional
30-unit sleep, probe loop, listings, then ingestion and query.  `.error`
means an exception escapes `main` (the script has no top-level handler). -/
def mainRun (env : Env) : Except String (List Event) :=
  match create_vector_bucket env.createBucketSvc with
  | none => .ok [Event.createBucket]
  | some _ =>
    match create_vector_index env.createIndexSvc with
    | none => .ok [Event.createBucket, Event.createIndex]
    | some _ =>
      ingestAndQuery env
        ([Event.createBucket, Event.createIndex, Event.sleep 30] ++
         probeLoop (mainProbe env) 3 ++ [Event.listBuckets, Event.listIndexes])

/-- The embedding service's documented contract: one embedding per input
text, in order (only the count is needed by the claims). -/
def EmbedContract (env : Env) : Prop :=
  ∀ ts, ∃ embs, env.embedSvc ts = .ok embs ∧ embs.length = ts.length

/-- Recogniser for probe events in a trace. -/
def Event.isProbe : Event → Bool
  | .probe _ => true
  | _ => false

/-! ### Concrete fixtures (used to instantiate the general theorems) -/

/-- An injective key supply standing in for `uuid.uuid4()`. -/
def uuidK (n : Nat) : String :=
  String.mk (List.replicate n 'k')

/-- A storage put oracle that always succeeds with HTTP 200. -/
def put200 : List VectorRecord → Except String Nat :=
  fun _ => .ok 200

/-- An embedding oracle honouring the service contract (one vector per text). -/
def embedOne : List String → Except String (List (List Rat)) :=
  fun ts => .ok (ts.map (fun _ => [1]))

/-- A world where everything works except the embedding service. -/
def envEmbedFail : Env where
  bucketName := "b"
  indexName := "i"
  createBucketSvc := .ok 200
  createIndexSvc := .ok 200
  probeSvc := fun _ _ => .ok []
  embedSvc := fun _ => .error "embedding service failure"
  putSvc := put200
  querySvc := fun _ => .ok []
  uuid := uuidK

/-- A world where every collaborator behaves. -/
def envGood : Env :=
  { envEmbedFail with embedSvc := embedOne }

/-- A world where the bulk insert always fails. -/
def envPutFail : Env :=
  { envGood with putSvc := fun _ => .error "put failure" }

/-- A world where bucket creation fails with an unrelated error. -/
def envBucketFail : Env :=
  { envGood with createBucketSvc := .error "AccessDenied" }

/-- A world where index creation fails with an unrelated error. -/
def envIndexFail : Env :=
  { envGood with createIndexSvc := .error "ValidationException" }

def mA : Metadata := [("original_text", "a")]

def mB : Metadata := [("original_text", "b")]

def r01 : QResult := { metadata := mA, distance := (1 : Rat) / 10 }

def r05 : QResult := { metadata := mB, distance := (1 : Rat) / 2 }

/-- A storage service that returns two results regardless of `topK`. -/
def svcTwo : QueryCall → Except String (List QResult) :=
  fun _ => .ok [r01, r05]

/-! ### Helper lemmas about the record builders -/

theorem cleanBuild_snd (uuid : Nat → String) :
    ∀ (vs : List (List Rat)) (ms : List Metadata) (s : Nat),
      (cleanBuild uuid s vs ms).2 = s + min vs.length ms.length := by
  intro vs
  induction vs with
  | nil => intro ms s; simp [cleanBuild]
  | cons v vst ih =>
    intro ms s
    cases ms with
    | nil => simp [cleanBuild]
    | cons m mst =>
      simp only [cleanBuild, List.length_cons]
      rw [ih mst (s + 1)]
      omega

theorem cleanBuild_fst_length (uuid : Nat → String) :
    ∀ (vs : List (List Rat)) (ms : List Metadata) (s : Nat),
      (cleanBuild uuid s vs ms).1.length = min vs.length ms.length := by
  intro vs
  induction vs with
  | nil => intro ms s; simp [cleanBuild]
  | cons v vst ih =>
    intro ms s
    cases ms with
    | nil => simp [cleanBuild]
    | cons m mst =>
      simp only [cleanBuild, List.length_cons]
      rw [ih mst (s + 1)]
      omega

theorem cleanBuild_map_data (uuid : Nat → String) :
    ∀ (vs : List (List Rat)) (ms : List Metadata) (s : Nat),
      (cleanBuild uuid s vs ms).1.map (fun r => r.data) = vs.take ms.length := by
  intro vs
  induction vs with
  | nil => intro ms s; simp [cleanBuild]
  | cons v vst ih =>
    intro ms s
    cases ms with
    | nil => simp [cleanBuild]
    | cons m mst =>
      simp only [cleanBuild, List.length_cons, List.take_succ_cons, List.map_cons]
      rw [ih mst (s + 1)]

theorem cleanBuild_map_metadata (uuid : Nat → String) :
    ∀ (vs : List (List Rat)) (ms : List Metadata) (s : Nat),
      (cleanBuild uuid s vs ms).1.map (fun r => r.metadata) = ms.take vs.length := by
  intro vs
  induction vs with
  | nil => intro ms s; simp [cleanBuild]
  | cons v vst ih =>
    intro ms s
    cases ms with
    | nil => simp [cleanBuild]
    | cons m mst =>
      simp only [cleanBuild, List.length_cons, List.take_succ_cons, List.map_cons]
      rw [ih mst (s + 1)]

theorem cleanBuild_key_mem (uuid : Nat → String) :
    ∀ (vs : List (List Rat)) (ms : List Metadata) (s : Nat) (r : VectorRecord),
      r ∈ (cleanBuild uuid s vs ms).1 →
      ∃ t, s ≤ t ∧ t < s + vs.length ∧ r.key = uuid t := by
  intro vs
  induction vs with
  | nil => intro ms s r h; simp [cleanBuild] at h
  | cons v vst ih =>
    intro ms s r h
    cases ms with
    | nil => simp [cleanBuild] at h
    | cons m mst =>
      simp only [cleanBuild, List.mem_cons] at h
      rcases h with rfl | h
      · exact ⟨s, Nat.le_refl s, by simp, rfl⟩
      · obtain ⟨t, h1, h2, h3⟩ := ih mst (s + 1) r h
        refine ⟨t, by omega, ?_, h3⟩
        simp only [List.length_cons]
        omega

theorem cleanBuild_keys_nodup (uuid : Nat → String) (hinj : Function.Injective uuid) :
    ∀ (vs : List (List Rat)) (ms : List Metadata) (s : Nat),
      ((cleanBuild uuid s vs ms).1.map (fun r => r.key)).Nodup := by
  intro vs
  induction vs with
  | nil => intro ms s; simp [cleanBuild]
  | cons v vst ih =>
    intro ms s
    cases ms with
    | nil => simp [cleanBuild]
    | cons m mst =>
      simp only [cleanBuild, List.map_cons, List.nodup_cons]
      refine ⟨?_, ih mst (s + 1)⟩
      intro hmem
      obtain ⟨r, hr, hk⟩ := List.mem_map.mp hmem
      obtain ⟨t, h1, _, h3⟩ := cleanBuild_key_mem uuid vst mst (s + 1) r hr
      have : t = s := hinj (h3 ▸ hk)
      omega

theorem cleanBuild_keys_disjoint (uuid : Nat → String) (hinj : Function.Injective uuid)
    (vs1 vs2 : List (List Rat)) (ms1 ms2 : List Metadata) (s1 s2 : Nat)
    (h : s1 + vs1.length ≤ s2) :
    ∀ k ∈ (cleanBuild uuid s1 vs1 ms1).1.map (fun r => r.key),
      k ∉ (cleanBuild uuid s2 vs2 ms2).1.map (fun r => r.key) := by
  intro k h1 h2
  obtain ⟨r, hr, hk⟩ := List.mem_map.mp h1
  obtain ⟨r', hr', hk'⟩ := List.mem_map.mp h2
  obtain ⟨t, ht1, ht2, ht3⟩ := cleanBuild_key_mem uuid vs1 ms1 s1 r hr
  obtain ⟨t', ht1', ht2', ht3'⟩ := cleanBuild_key_mem uuid vs2 ms2 s2 r' hr'
  have heq : t = t' := hinj (by rw [← ht3, ← ht3', hk, hk'])
  omega

theorem buildRecords_ok (uuid : Nat → String) :
    ∀ (vs : List (List Rat)) (s i : Nat) (ml : List Metadata),
      i + vs.length ≤ ml.length →
      buildRecords uuid s i vs ml =
        .ok ((cleanBuild uuid s vs (ml.drop i)).1, s + vs.length) := by
  intro vs
  induction vs with
  | nil => intro s i ml h; simp [buildRecords, cleanBuild]
  | cons v vst ih =>
    intro s i ml h
    have hi : i < ml.length := by
      simp only [List.length_cons] at h; omega
    have hsome : ml[i]? = some ml[i] := List.getElem?_eq_getElem hi
    have hih := ih (s + 1) (i + 1) ml (by simp only [List.length_cons] at h; omega)
    have hdrop : ml.drop i = ml[i] :: ml.drop (i + 1) := List.drop_eq_getElem_cons hi
    have harith : s + 1 + vst.length = s + (vst.length + 1) := by omega
    simp only [buildRecords, hsome, hih, hdrop, cleanBuild, List.length_cons, harith]

theorem buildRecords_err (uuid : Nat → String) :
    ∀ (vs : List (List Rat)) (s i : Nat) (ml : List Metadata),
      vs ≠ [] → ml.length < i + vs.length →
      buildRecords uuid s i vs ml = .error "IndexError: list index out of range" := by
  intro vs
  induction vs with
  | nil => intro s i ml h _; exact absurd rfl h
  | cons v vst ih =>
    intro s i ml _ hlt
    by_cases hi : i < ml.length
    · have hvst : vst ≠ [] := by
        intro he
        subst he
        simp only [List.length_cons, List.length_nil] at hlt
        omega
      have hsome : ml[i]? = some ml[i] := List.getElem?_eq_getElem hi
      have hih := ih (s + 1) (i + 1) ml hvst
        (by simp only [List.length_cons] at hlt ⊢; omega)
      simp only [buildRecords, hsome, hih]
    · have hnone : ml[i]? = none := by
        rw [List.getElem?_eq_none]
        omega
      simp only [buildRecords, hnone]

/-! ### Helper lemmas about the probe loop and the orchestrator -/

theorem probeLoopGo_events (probe : Nat → Bool) (mr : Nat) :
    ∀ (l : List Nat) (e : Event), e ∈ probeLoopGo probe mr l →
      (∃ a, e = Event.probe a) ∨ e = Event.sleep 30 := by
  intro l
  induction l with
  | nil => intro e h; simp [probeLoopGo] at h
  | cons a rest ih =>
    intro e h
    simp only [probeLoopGo] at h
    split at h
    · simp only [List.mem_singleton] at h
      exact Or.inl ⟨a, h⟩
    · split at h
      · simp only [List.mem_cons] at h
        rcases h with rfl | rfl | h
        · exact Or.inl ⟨a, rfl⟩
        · exact Or.inr rfl
        · exact ih e h
      · simp only [List.mem_singleton] at h
        exact Or.inl ⟨a, h⟩

theorem ingestAndQuery_spec (env : Env) (henv : EmbedContract env) (pre : List Event) :
    ∃ embs recs,
      env.embedSvc sample_texts = .ok embs ∧
      recs = (cleanBuild env.uuid 0 embs sampleMetadata).1 ∧
      ((∃ e, env.putSvc recs = .error e) →
        ingestAndQuery env pre =
          .ok (pre ++ [Event.embedCall sample_texts] ++ [Event.putCall recs])) ∧
      (∀ r, env.putSvc recs = .ok r →
        ∃ q, ingestAndQuery env pre =
          .ok (pre ++ [Event.embedCall sample_texts] ++ [Event.putCall recs] ++
            [Event.sleep 15, Event.embedCall [main_query_text], Event.finalQuery q])) := by
  obtain ⟨embs, hembs, hlen⟩ := henv sample_texts
  have hlen5 : embs.length = 5 := by rw [hlen]; rfl
  rcases embs with _ | ⟨e0, rest⟩
  · simp at hlen5
  · have hml : (0 : Nat) + (e0 :: rest).length ≤ sampleMetadata.length := by
      have : sampleMetadata.length = 5 := rfl
      omega
    have hbr := buildRecords_ok env.uuid (e0 :: rest) 0 0 sampleMetadata hml
    rw [List.drop_zero] at hbr
    refine ⟨e0 :: rest, (cleanBuild env.uuid 0 (e0 :: rest) sampleMetadata).1,
      hembs, rfl, ?_, ?_⟩
    · rintro ⟨e, he⟩
      simp only [ingestAndQuery, hembs, insert_vectors, hbr, he]
    · intro r hr
      obtain ⟨qembs, hq, hqlen⟩ := henv [main_query_text]
      have hqlen1 : qembs.length = 1 := by rw [hqlen]; rfl
      rcases qembs with _ | ⟨q0, qrest⟩
      · simp at hqlen1
      · refine ⟨mkQueryCall env.bucketName env.indexName q0 5, ?_⟩
        simp only [ingestAndQuery, hembs, insert_vectors, hbr, hr, hq]

theorem mainRun_total (env : Env) (henv : EmbedContract env) :
    ∃ t, mainRun env = .ok t := by
  unfold mainRun
  cases hcb : create_vector_bucket env.createBucketSvc with
  | none => exact ⟨_, rfl⟩
  | some cb =>
    cases hci : create_vector_index env.createIndexSvc with
    | none => exact ⟨_, rfl⟩
    | some ci =>
      obtain ⟨embs, recs, hembs, hrecs, hfail, hok⟩ := ingestAndQuery_spec env henv
        ([Event.createBucket, Event.createIndex, Event.sleep 30] ++
         probeLoop (mainProbe env) 3 ++ [Event.listBuckets, Event.listIndexes])
      cases hp : env.putSvc recs with
      | ok r => obtain ⟨q, hq⟩ := hok r hp; exact ⟨_, hq⟩
      | error e => exact ⟨_, hfail ⟨e, hp⟩⟩

/-! ### Claim theorems -/

/-- C2: every bucket/index creation error whose text contains
"BucketAlreadyExists" / "IndexAlreadyExists" or, case-insensitively,
"already exists" is absorbed as a truthy success value and not propagated;
every other creation error yields the failure indicator `None` without
raising (the embedded functions are total). -/
theorem c2_already_exists_absorbed (e : String) :
    (bucketExistsErr e = true →
      create_vector_bucket (.error e) = some CreateOutcome.alreadyOk) ∧
    (bucketExistsErr e = false → create_vector_bucket (.error e) = none) ∧
    (indexExistsErr e = true →
      create_vector_index (.error e) = some CreateOutcome.alreadyOk) ∧
    (indexExistsErr e = false → create_vector_index (.error e) = none) := by
  refine ⟨fun h => ?_, fun h => ?_, fun h => ?_, fun h => ?_⟩ <;>
    simp [create_vector_bucket, create_vector_index, h]

theorem c2_witness :
    create_vector_bucket (.error "BucketAlreadyExists: conflict") =
      some CreateOutcome.alreadyOk ∧
    create_vector_index (.error "BucketAlreadyExists: conflict") = none ∧
    create_vector_index (.error "the index Already Exists") =
      some CreateOutcome.alreadyOk ∧
    create_vector_bucket (.error "AccessDenied") = none :=
  ⟨(c2_already_exists_absorbed "BucketAlreadyExists: conflict").1 (by decide),
   (c2_already_exists_absorbed "BucketAlreadyExists: conflict").2.2.2 (by decide),
   (c2_already_exists_absorbed "the index Already Exists").2.2.1 (by decide),
   (c2_already_exists_absorbed "AccessDenied").2.1 (by decide)⟩

/-- C3: the readiness probe issues one similarity query whose probe vector
has all components equal (0.1) and length equal to the configured dimension,
with top-k 1; it returns `False` (NotReady) exactly when the error text,
lower-cased, contains "not ready" or "building", and returns `True` on
query success and on any other error. -/
theorem c3_probe_classification (b i : String) (dim : Nat)
    (svc : QueryCall → Except String (List QResult)) :
    (probeCall b i dim).queryVector.length = dim ∧
    (∀ x ∈ (probeCall b i dim).queryVector, x = (1 : Rat) / 10) ∧
    (probeCall b i dim).topK = 1 ∧
    (∀ rs, svc (probeCall b i dim) = .ok rs →
      test_index_with_simple_operation b i dim svc = true) ∧
    (∀ e, svc (probeCall b i dim) = .error e →
      (test_index_with_simple_operation b i dim svc = false ↔
        (strContains (strLower e) "not ready" ||
         strContains (strLower e) "building") = true)) := by
  refine ⟨by simp [probeCall, mkQueryCall], ?_, rfl, ?_, ?_⟩
  · intro x hx
    exact List.eq_of_mem_replicate hx
  · intro rs h
    simp [test_index_with_simple_operation, h]
  · intro e h
    simp only [test_index_with_simple_operation, h]
    split <;> simp_all

theorem c3_witness :
    test_index_with_simple_operation "b" "i" 4 (fun _ => .error "Index Not Ready") = false ∧
    test_index_with_simple_operation "b" "i" 4 (fun _ => .error "ServiceUnavailable") = true ∧
    test_index_with_simple_operation "b" "i" 4 (fun _ => .ok []) = true := by
  refine ⟨?_, ?_, ?_⟩
  · exact ((c3_probe_classification "b" "i" 4 _).2.2.2.2 "Index Not Ready" rfl).mpr
      (by decide)
  · have h := (c3_probe_classification "b" "i" 4
      (fun _ => .error "ServiceUnavailable")).2.2.2.2 "ServiceUnavailable" rfl
    rw [show (strContains (strLower "ServiceUnavailable") "not ready" ||
      strContains (strLower "ServiceUnavailable") "building") = false by decide] at h
    simpa using h
  · exact (c3_probe_classification "b" "i" 4 _).2.2.2.1 [] rfl

/-- C5 (amended): for an empty input texts sequence the pipeline does NOT
short-circuit: `generate_embeddings` still issues the embedding-service
call with the empty batch, and `insert_vectors` still issues the bulk
insert call carrying an empty record list (returning normally). -/
theorem c5_no_short_circuit (svc : List String → Except String (List (List Rat)))
    (uuid : Nat → String) (s : Nat) (putSvc : List VectorRecord → Except String Nat) :
    (generate_embeddings svc []).2 = [Event.embedCall []] ∧
    (CleanShort.embed svc []).2 = [Event.embedCall []] ∧
    ∃ res, insert_vectors uuid s putSvc [] [] = .ok (res, s, [Event.putCall []]) := by
  refine ⟨rfl, rfl, ?_⟩
  cases h : putSvc [] with
  | ok r => exact ⟨some r, by simp [insert_vectors, buildRecords, h]⟩
  | error e => exact ⟨none, by simp [insert_vectors, buildRecords, h]⟩

/-- C5 counterexample: at the concrete empty input, the embedding call and
the bulk insert call are both issued (the claim says neither happens). -/
theorem c5_counterexample :
    (generate_embeddings (fun _ => Except.ok ([] : List (List Rat))) []).2 =
      [Event.embedCall []] ∧
    insert_vectors uuidK 0 put200 [] [] = .ok (some 200, 0, [Event.putCall []]) ∧
    (CleanShort.embed (fun _ => Except.ok ([] : List (List Rat))) []).2 =
      [Event.embedCall []] :=
  ⟨rfl, rfl, rfl⟩

theorem uuidK_inj : Function.Injective uuidK := by
  intro a b h
  have h2 := congrArg (fun s => s.data.length) h
  simpa [uuidK] using h2

/-- C1: for every non-empty vector batch with a matching metadata list,
`insert_vectors` builds exactly one record per input (data and metadata in
matching order), the generated keys are pairwise distinct — also across a
second, repeated call (even on identical input) — and exactly one bulk
insert call is issued, carrying the full record list; the zip-based
`CleanShort.insert` issues the same single bulk call with the same records. -/
theorem c1_one_record_per_text (uuid : Nat → String) (huuid : Function.Injective uuid)
    (putSvc putSvc2 : List VectorRecord → Except String Nat)
    (vectors vectors2 : List (List Rat)) (ml ml2 : List Metadata) (s : Nat)
    (_hne : vectors ≠ []) (hlen : vectors.length = ml.length)
    (hlen2 : vectors2.length = ml2.length) :
    ∃ recs res recs2 res2,
      insert_vectors uuid s putSvc vectors ml =
        .ok (res, s + vectors.length, [Event.putCall recs]) ∧
      recs.length = vectors.length ∧
      recs.map (fun r => r.data) = vectors ∧
      recs.map (fun r => r.metadata) = ml ∧
      (recs.map (fun r => r.key)).Nodup ∧
      (∀ r, putSvc recs = .ok r →
        CleanShort.insert uuid s putSvc vectors ml =
          .ok (r, s + vectors.length, [Event.putCall recs])) ∧
      insert_vectors uuid (s + vectors.length) putSvc2 vectors2 ml2 =
        .ok (res2, s + vectors.length + vectors2.length, [Event.putCall recs2]) ∧
      (recs2.map (fun r => r.key)).Nodup ∧
      (∀ k ∈ recs.map (fun r => r.key), k ∉ recs2.map (fun r => r.key)) := by
  have hml : (0 : Nat) + vectors.length ≤ ml.length := by omega
  have hbr := buildRecords_ok uuid vectors s 0 ml hml
  rw [List.drop_zero] at hbr
  have hml2 : (0 : Nat) + vectors2.length ≤ ml2.length := by omega
  have hbr2 := buildRecords_ok uuid vectors2 (s + vectors.length) 0 ml2 hml2
  rw [List.drop_zero] at hbr2
  have h1 : ∃ res, insert_vectors uuid s putSvc vectors ml =
      .ok (res, s + vectors.length, [Event.putCall (cleanBuild uuid s vectors ml).1]) := by
    cases hp : putSvc (cleanBuild uuid s vectors ml).1 with
    | ok r => exact ⟨some r, by simp only [insert_vectors, hbr, hp]⟩
    | error e => exact ⟨none, by simp only [insert_vectors, hbr, hp]⟩
  obtain ⟨res, hres⟩ := h1
  have h2 : ∃ res2, insert_vectors uuid (s + vectors.length) putSvc2 vectors2 ml2 =
      .ok (res2, s + vectors.length + vectors2.length,
        [Event.putCall (cleanBuild uuid (s + vectors.length) vectors2 ml2).1]) := by
    cases hp : putSvc2 (cleanBuild uuid (s + vectors.length) vectors2 ml2).1 with
    | ok r => exact ⟨some r, by simp only [insert_vectors, hbr2, hp]⟩
    | error e => exact ⟨none, by simp only [insert_vectors, hbr2, hp]⟩
  obtain ⟨res2, hres2⟩ := h2
  refine ⟨(cleanBuild uuid s vectors ml).1, res,
          (cleanBuild uuid (s + vectors.length) vectors2 ml2).1, res2,
          hres, ?_, ?_, ?_, cleanBuild_keys_nodup uuid huuid vectors ml s, ?_,
          hres2, cleanBuild_keys_nodup uuid huuid vectors2 ml2 (s + vectors.length), ?_⟩
  · rw [cleanBuild_fst_length]; omega
  · rw [cleanBuild_map_data, ← hlen, List.take_length]
  · rw [cleanBuild_map_metadata, hlen, List.take_length]
  · intro r hp
    have hsnd : (cleanBuild uuid s vectors ml).2 = s + vectors.length := by
      rw [cleanBuild_snd]; omega
    simp only [CleanShort.insert, hp, hsnd]
  · exact cleanBuild_keys_disjoint uuid huuid vectors vectors2 ml ml2 s
      (s + vectors.length) (Nat.le_refl _)

theorem c1_witness :
    Function.Injective uuidK ∧
    ∃ recs res, insert_vectors uuidK 0 put200 ([[1], [2]] : List (List Rat)) [mA, mB] =
        .ok (res, 2, [Event.putCall recs]) ∧
      recs.length = 2 ∧
      (recs.map (fun r => r.key)).Nodup := by
  refine ⟨uuidK_inj, ?_⟩
  obtain ⟨recs, res, recs2, res2, hres, hl, _, _, hnd, _, _, _, _⟩ :=
    c1_one_record_per_text uuidK uuidK_inj put200 put200
      ([[1], [2]] : List (List Rat)) ([[3]] : List (List Rat)) [mA, mB] [mA] 0
      (by simp) rfl rfl
  exact ⟨recs, res, hres, hl, hnd⟩

/-- C10: the two insertion implementations agree exactly when the metadata
list is at least as long as the vectors list — there `insert_vectors`'s
builder produces the very record batch the zip-based builder produces (one
record per vector, per-position data and metadata intact) — while for a
strictly shorter metadata list `insert_vectors` raises an uncaught
out-of-range index error and `CleanShort.insert`'s builder silently
truncates the batch to the metadata length. -/
theorem c10_insert_refinement (uuid : Nat → String)
    (putSvc : List VectorRecord → Except String Nat)
    (vectors : List (List Rat)) (ml : List Metadata) (s : Nat) :
    (vectors.length ≤ ml.length →
      buildRecords uuid s 0 vectors ml =
        .ok ((cleanBuild uuid s vectors ml).1, s + vectors.length) ∧
      (cleanBuild uuid s vectors ml).1.length = vectors.length ∧
      (cleanBuild uuid s vectors ml).1.map (fun r => r.data) = vectors ∧
      (cleanBuild uuid s vectors ml).1.map (fun r => r.metadata) =
        ml.take vectors.length) ∧
    (ml.length < vectors.length →
      insert_vectors uuid s putSvc vectors ml =
        .error "IndexError: list index out of range" ∧
      (cleanBuild uuid s vectors ml).1.length = ml.length) := by
  constructor
  · intro h
    have hml : (0 : Nat) + vectors.length ≤ ml.length := by omega
    have hbr := buildRecords_ok uuid vectors s 0 ml hml
    rw [List.drop_zero] at hbr
    refine ⟨hbr, ?_, ?_, cleanBuild_map_metadata uuid vectors ml s⟩
    · rw [cleanBuild_fst_length]; omega
    · rw [cleanBuild_map_data, List.take_of_length_le h]
  · intro h
    have hne : vectors ≠ [] := by
      intro he
      subst he
      simp at h
    have herr := buildRecords_err uuid vectors s 0 ml hne (by omega)
    refine ⟨by simp only [insert_vectors, herr], ?_⟩
    rw [cleanBuild_fst_length]; omega

theorem c10_witness :
    buildRecords uuidK 0 0 ([[1]] : List (List Rat)) [mA] =
      .ok ((cleanBuild uuidK 0 ([[1]] : List (List Rat)) [mA]).1, 1) ∧
    insert_vectors uuidK 0 put200 ([[1], [2]] : List (List Rat)) [mA] =
      .error "IndexError: list index out of range" ∧
    (cleanBuild uuidK 0 ([[1], [2]] : List (List Rat)) [mA]).1.length = 1 := by
  refine ⟨?_, ?_, ?_⟩
  · exact ((c10_insert_refinement uuidK put200 ([[1]] : List (List Rat)) [mA] 0).1
      (by simp)).1
  · exact ((c10_insert_refinement uuidK put200 ([[1], [2]] : List (List Rat)) [mA] 0).2
      (by simp)).1
  · exact ((c10_insert_refinement uuidK put200 ([[1], [2]] : List (List Rat)) [mA] 0).2
      (by simp)).2

/-- C4: the probe retry loop performs at most 3 attempts with one fixed
30-unit sleep between consecutive attempts, stops at the first Ready
attempt, and — as a total function — always returns; whatever the probe
outcomes, `main` then proceeds to the post-probe stages (the run's
continuation does not depend on the probe results). -/
theorem c4_probe_loop_bounded (probe : Nat → Bool) (env : Env) (r1 r2 : Nat)
    (hb : env.createBucketSvc = .ok r1) (hi : env.createIndexSvc = .ok r2) :
    probeLoop probe 3 =
      (if probe 0 then [Event.probe 0]
       else if probe 1 then [Event.probe 0, Event.sleep 30, Event.probe 1]
       else [Event.probe 0, Event.sleep 30, Event.probe 1, Event.sleep 30,
             Event.probe 2]) ∧
    (probeLoop probe 3).countP Event.isProbe ≤ 3 ∧
    mainRun env = ingestAndQuery env
      ([Event.createBucket, Event.createIndex, Event.sleep 30] ++
       probeLoop (mainProbe env) 3 ++ [Event.listBuckets, Event.listIndexes]) := by
  have hr : List.range 3 = [0, 1, 2] := rfl
  have hcf : probeLoop probe 3 =
      (if probe 0 then [Event.probe 0]
       else if probe 1 then [Event.probe 0, Event.sleep 30, Event.probe 1]
       else [Event.probe 0, Event.sleep 30, Event.probe 1, Event.sleep 30,
             Event.probe 2]) := by
    rw [probeLoop, hr]
    cases h0 : probe 0 <;> cases h1 : probe 1 <;> cases h2 : probe 2 <;>
      simp [probeLoopGo, h0, h1, h2]
  refine ⟨hcf, ?_, ?_⟩
  · rw [hcf]
    cases probe 0 <;> cases probe 1 <;> simp [List.countP, List.countP.go, Event.isProbe]
  · simp only [mainRun, create_vector_bucket, create_vector_index, hb, hi]

theorem c4_witness :
    probeLoop (fun _ => false) 3 =
      [Event.probe 0, Event.sleep 30, Event.probe 1, Event.sleep 30,
       Event.probe 2] ∧
    (probeLoop (fun _ => false) 3).countP Event.isProbe ≤ 3 ∧
    mainRun envGood = ingestAndQuery envGood
      ([Event.createBucket, Event.createIndex, Event.sleep 30] ++
       probeLoop (mainProbe envGood) 3 ++ [Event.listBuckets, Event.listIndexes]) :=
  c4_probe_loop_bounded (fun _ => false) envGood 200 200 rfl rfl

/-- C6 (amended): failures in provisioning, probing, listing, bulk insert
and query are all converted to status values the orchestrator observes —
whenever the embedding service honours its contract, the run returns
normally for every behaviour of all other collaborators — but an
embedding-service failure propagates uncaught out of `generate_embeddings`
(and hence out of the run, see the counterexample). -/
theorem c6_failures_contained (env : Env) (henv : EmbedContract env)
    (svc : List String → Except String (List (List Rat)))
    (texts : List String) (e : String) (hsvc : svc texts = .error e) :
    (∃ t, mainRun env = .ok t) ∧ (generate_embeddings svc texts).1 = .error e :=
  ⟨mainRun_total env henv, by simp [generate_embeddings, hsvc]⟩

theorem c6_witness :
    (∃ t, mainRun envGood = .ok t) ∧
    (generate_embeddings (fun _ => .error "boom") ["x"]).1 = .error "boom" :=
  c6_failures_contained envGood (fun ts => ⟨ts.map (fun _ => [1]), rfl, by simp⟩)
    (fun _ => .error "boom") ["x"] "boom" rfl

/-- C6 counterexample: with every collaborator healthy except the embedding
service, the embedding exception escapes its stage and the whole run —
contradicting "no exception propagates uncaught" and "the top-level run
exits cleanly". -/
theorem c6_counterexample :
    mainRun envEmbedFail = .error "embedding service failure" ∧
    (generate_embeddings envEmbedFail.embedSvc sample_texts).1 =
      .error "embedding service failure" :=
  ⟨rfl, rfl⟩

/-- C7: stage ordering under failure — a bucket-provisioning failure ends
the run after the bucket step alone; an index-provisioning failure ends it
after the two provisioning steps (no probe, ingest or query); when the bulk
insert fails the final query (and the post-insert delay) never happen; when
the insert succeeds the trace ends with the post-insert delay followed by
the query step. -/
theorem c7_stage_ordering :
    (∀ (env : Env) (e : String), env.createBucketSvc = .error e →
      bucketExistsErr e = false → mainRun env = .ok [Event.createBucket]) ∧
    (∀ (env : Env) (r : Nat) (e : String), env.createBucketSvc = .ok r →
      env.createIndexSvc = .error e → indexExistsErr e = false →
      mainRun env = .ok [Event.createBucket, Event.createIndex]) ∧
    (∀ env : Env, EmbedContract env → (∀ rs, ∃ e, env.putSvc rs = .error e) →
      ∃ t, mainRun env = .ok t ∧ (∀ q, Event.finalQuery q ∉ t) ∧
        Event.sleep 15 ∉ t) ∧
    (∀ (env : Env) (r1 r2 : Nat), EmbedContract env →
      (∀ rs, ∃ r, env.putSvc rs = .ok r) →
      env.createBucketSvc = .ok r1 → env.createIndexSvc = .ok r2 →
      ∃ pre recs q, mainRun env =
        .ok (pre ++ [Event.putCall recs, Event.sleep 15,
          Event.embedCall [main_query_text], Event.finalQuery q])) := by
  refine ⟨?_, ?_, ?_, ?_⟩
  · intro env e hb hm
    simp [mainRun, create_vector_bucket, hb, hm]
  · intro env r e hb hi hm
    simp [mainRun, create_vector_bucket, create_vector_index, hb, hi, hm]
  · intro env henv hput
    cases hcb : create_vector_bucket env.createBucketSvc with
    | none =>
      refine ⟨[Event.createBucket], by simp [mainRun, hcb], by simp, by simp⟩
    | some cb =>
      cases hci : create_vector_index env.createIndexSvc with
      | none =>
        refine ⟨[Event.createBucket, Event.createIndex],
          by simp [mainRun, hcb, hci], by simp, by simp⟩
      | some ci =>
        obtain ⟨embs, recs, hembs, hrecs, hfail, _⟩ := ingestAndQuery_spec env henv
          ([Event.createBucket, Event.createIndex, Event.sleep 30] ++
           probeLoop (mainProbe env) 3 ++ [Event.listBuckets, Event.listIndexes])
        obtain ⟨e, he⟩ := hput recs
        have hmr : mainRun env = .ok
            (([Event.createBucket, Event.createIndex, Event.sleep 30] ++
              probeLoop (mainProbe env) 3 ++ [Event.listBuckets, Event.listIndexes]) ++
             [Event.embedCall sample_texts] ++ [Event.putCall recs]) := by
          simp only [mainRun, hcb, hci]
          exact hfail ⟨e, he⟩
        refine ⟨_, hmr, ?_, ?_⟩
        · intro q hq
          simp at hq
          rcases probeLoopGo_events (mainProbe env) 3 (List.range 3) _ hq with ⟨a, ha⟩ | ha <;>
            simp at ha
        · intro hq
          simp at hq
          rcases probeLoopGo_events (mainProbe env) 3 (List.range 3) _ hq with ⟨a, ha⟩ | ha <;>
            simp at ha
  · intro env r1 r2 henv hput hb hi
    obtain ⟨embs, recs, hembs, hrecs, _, hok⟩ := ingestAndQuery_spec env henv
      ([Event.createBucket, Event.createIndex, Event.sleep 30] ++
       probeLoop (mainProbe env) 3 ++ [Event.listBuckets, Event.listIndexes])
    obtain ⟨r, hr⟩ := hput recs
    obtain ⟨q, hq⟩ := hok r hr
    refine ⟨([Event.createBucket, Event.createIndex, Event.sleep 30] ++
        probeLoop (mainProbe env) 3 ++ [Event.listBuckets, Event.listIndexes]) ++
        [Event.embedCall sample_texts], recs, q, ?_⟩
    simp only [mainRun, create_vector_bucket, create_vector_index, hb, hi]
    rw [hq]
    simp [List.append_assoc]

theorem c7_witness :
    mainRun envBucketFail = .ok [Event.createBucket] ∧
    mainRun envIndexFail = .ok [Event.createBucket, Event.createIndex] ∧
    (∃ t, mainRun envPutFail = .ok t ∧ (∀ q, Event.finalQuery q ∉ t) ∧
      Event.sleep 15 ∉ t) ∧
    (∃ pre recs q, mainRun envGood =
      .ok (pre ++ [Event.putCall recs, Event.sleep 15,
        Event.embedCall [main_query_text], Event.finalQuery q])) := by
  refine ⟨?_, ?_, ?_, ?_⟩
  · exact c7_stage_ordering.1 envBucketFail "AccessDenied" rfl (by decide)
  · exact c7_stage_ordering.2.1 envIndexFail 200 "ValidationException" rfl rfl (by decide)
  · exact c7_stage_ordering.2.2.1 envPutFail
      (fun ts => ⟨ts.map (fun _ => [1]), rfl, by simp⟩)
      (fun rs => ⟨"put failure", rfl⟩)
  · exact c7_stage_ordering.2.2.2 envGood 200 200
      (fun ts => ⟨ts.map (fun _ => [1]), rfl, by simp⟩)
      (fun rs => ⟨200, rfl⟩) rfl rfl

/-- C8 (amended): the query pipeline presents the service's result sequence
unchanged — same elements, same order, no re-sort and no truncation — so it
returns at most `k` results in non-decreasing distance order exactly when
the service's response already satisfies those bounds. -/
theorem c8_query_passthrough (svc : QueryCall → Except String (List QResult))
    (b i : String) (v : List Rat) (k : Nat) (results : List QResult)
    (h : svc (mkQueryCall b i v k) = .ok results) :
    (query_vectors svc b i v k).1 = some results ∧
    (query_vectors svc b i v k).2 = displayRows results ∧
    (displayRows results).length = results.length ∧
    (results.length ≤ k → ((query_vectors svc b i v k).1.getD []).length ≤ k) ∧
    (List.Chain' (fun a c => a.distance ≤ c.distance) results →
      List.Chain' (fun a c => a.distance ≤ c.distance)
        ((query_vectors svc b i v k).1.getD [])) := by
  have h1 : query_vectors svc b i v k = (some results, displayRows results) := by
    simp [query_vectors, h]
  rw [h1]
  exact ⟨rfl, rfl, by simp [displayRows], fun hl => by simpa using hl,
    fun hc => by simpa using hc⟩

theorem c8_witness :
    (query_vectors svcTwo "b" "i" [1] 5).1 = some [r01, r05] ∧
    (query_vectors svcTwo "b" "i" [1] 5).2 = displayRows [r01, r05] := by
  have h := c8_query_passthrough svcTwo "b" "i" [1] 5 [r01, r05] rfl
  exact ⟨h.1, h.2.1⟩

/-- C8 counterexample: with `topK = 1` and a storage response of two results
(distances 0.1 and 0.5), the pipeline returns and renders both results —
it does not truncate to the requested k = 1. -/
theorem c8_counterexample :
    (query_vectors svcTwo "b" "i" [1] 1).1 = some [r01, r05] ∧
    ((query_vectors svcTwo "b" "i" [1] 1).1.getD []).length = 2 ∧
    (mkQueryCall "b" "i" [1] 1).topK = 1 :=
  ⟨rfl, rfl, rfl⟩

/-- C9: each rendered result row shows the record's original text taken from
its metadata, substituting a placeholder when the original-text field is
absent ("No text available" in `s3_bucket.py`; Python `None`, rendered as
the text "None", in `s3_clean_short.py`), and formats the numeric distance
in fixed precision: a decimal point followed by exactly four decimal
digits; rows keep the service's order. -/
theorem c9_display_rendering (results : List QResult) (r : QResult) (q : Rat) :
    displayRows results = results.map displayRow ∧
    (metaGet r.metadata "original_text" = none →
      displayRow r = ("No text available", format4 r.distance)) ∧
    (∀ v, metaGet r.metadata "original_text" = some v →
      displayRow r = (v, format4 r.distance)) ∧
    (∃ ip, format4 q = ip ++ "." ++ pad4 ((pyRound4 q).natAbs % 10000) ∧
      (pad4 ((pyRound4 q).natAbs % 10000)).length = 4 ∧
      ∀ c ∈ (pad4 ((pyRound4 q).natAbs % 10000)).data, c.isDigit = true) ∧
    (metaGet r.metadata "original_text" = none →
      cleanDisplayRow r = "→ None (dist: " ++ format4 r.distance ++ ")") := by
  refine ⟨rfl, ?_, ?_, ?_, ?_⟩
  · intro h
    simp [displayRow, h]
  · intro v h
    simp [displayRow, h]
  · refine ⟨(if pyRound4 q < 0 then "-" else "") ++
      toString ((pyRound4 q).natAbs / 10000), rfl, rfl, ?_⟩
    intro c hc
    have hd : ∀ d : Nat, d < 10 → (Nat.digitChar d).isDigit = true := by decide
    simp only [pad4, List.mem_cons, List.not_mem_nil, or_false] at hc
    rcases hc with rfl | rfl | rfl | rfl <;>
      exact hd _ (Nat.mod_lt _ (by norm_num))
  · intro h
    simp [cleanDisplayRow, h]

theorem c9_witness :
    displayRow { metadata := [], distance := (1 : Rat) / 2 } =
      ("No text available", "0.5000") ∧
    (pad4 ((pyRound4 ((1 : Rat) / 2)).natAbs % 10000)).length = 4 := by
  have hf : format4 ((1 : Rat) / 2) = "0.5000" := by
    have hr : pyRound4 ((1 : Rat) / 2) = 5000 := by norm_num [pyRound4]
    rw [format4, hr]
    decide
  have h := c9_display_rendering [] { metadata := [], distance := (1 : Rat) / 2 }
    ((1 : Rat) / 2)
  refine ⟨?_, ?_⟩
  · have h2 := h.2.1 rfl
    rw [h2, hf]
  · obtain ⟨ip, _, hlen, _⟩ := h.2.2.2.1
    exact hlen
